import Mathlib

/-!
Verification of `utils/kb_store.py`, a file-system backed knowledge-base
store.  The Python module is shallowly embedded: the file system is a value
of type `Store` (a map from KB id to directory contents plus the contents of
`index.json`), JSON documents are values of the inductive type `Json`,
Python dicts are association lists with Python's insertion-order update
semantics, and each public operation of the module is a Lean function on
`Store`.  A file on disk is `absent`, `malformed` (present but not valid
JSON) or `json j`.  Clock readings (`datetime.utcnow().isoformat() + "Z"`)
and generated ids (`str(uuid.uuid4())[:8]`) are passed in as parameters.
Operations that can let a Python exception escape to the caller return an
`Except Unit` result (`.error ()` is an uncaught exception) together with
the store as mutated by the writes performed before the raise.
-/

set_option autoImplicit false

namespace KBStore

/-- JSON values, as produced by `json.load`. Numbers are modelled as
integers; no claim involves fractional numbers. -/
inductive Json where
  | null
  | bool (b : Bool)
  | num (n : Int)
  | str (s : String)
  | arr (elts : List Json)
  | obj (kvs : List (String × Json))

/-- Python dict lookup `d.get(k)` on an association list (first match). -/
def lookup : List (String × Json) → String → Option Json
  | [], _ => none
  | (k', v) :: rest, k => if k' = k then some v else lookup rest k

/-- Python dict lookup with default, `d.get(k, dflt)`. -/
def getD (d : List (String × Json)) (k : String) (dflt : Json) : Json :=
  (lookup d k).getD dflt

/-- Python dict assignment `d[k] = v`: replaces the value in place if the
key is present (keeping its position), otherwise appends the pair. -/
def dictSet : List (String × Json) → String → Json → List (String × Json)
  | [], k, v => [(k, v)]
  | (k', v') :: rest, k, v =>
    if k' = k then (k, v) :: rest else (k', v') :: dictSet rest k v

/-- Python `d.update(e)` for dicts: assign every pair of `e` into `d`, in
order. -/
def dictUpdate (d e : List (String × Json)) : List (String × Json) :=
  e.foldl (fun acc kv => dictSet acc kv.1 kv.2) d

/-- Python truthiness of a JSON value (`if not kb_id: ...`). -/
def pyTruthy : Json → Bool
  | .null => false
  | .bool b => b
  | .num n => n != 0
  | .str s => s != ""
  | .arr elts => !elts.isEmpty
  | .obj kvs => !kvs.isEmpty

/-- One file slot on disk: missing, present but not parseable as JSON, or
present with parsed content `j`. -/
inductive FileData where
  | absent
  | malformed
  | json (j : Json)

/-- Contents of one record directory `kb_store/<kb_id>/`: the three file
slots `meta.json`, `schema.json`, `prompts.json`. -/
structure KBDir where
  meta : FileData
  schema : FileData
  prompts : FileData

/-- The store root: the record directories that exist, keyed by kb id, and
the contents of `index.json`. -/
structure Store where
  dirs : List (String × KBDir)
  index : FileData

/-- Association-list lookup for record directories (first match). -/
def lookupDir : List (String × KBDir) → String → Option KBDir
  | [], _ => none
  | (k', v) :: rest, k => if k' = k then some v else lookupDir rest k

/-- Directory lookup: does `kb_store/<kb_id>/` exist, and with what files.
`some d` is `kb_path.exists()` returning `True`. -/
def findDir (s : Store) (kb_id : String) : Option KBDir :=
  lookupDir s.dirs kb_id

/-- Write (create or replace) a record directory, as `mkdir` plus the file
writes do. -/
def dirSet : List (String × KBDir) → String → KBDir → List (String × KBDir)
  | [], k, v => [(k, v)]
  | (k', v') :: rest, k, v =>
    if k' = k then (k, v) :: rest else (k', v') :: dirSet rest k v

/-- `shutil.rmtree`: remove the record directory. -/
def dirRemove (ds : List (String × KBDir)) (k : String) : List (String × KBDir) :=
  ds.filter (fun kv => kv.1 ≠ k)

/-- `_default_schema()`: the default schema structure. -/
def default_schema : Json :=
  .obj [
    ("Nodes", .arr [
      .str "person", .str "location", .str "organization", .str "event", .str "object",
      .str "concept", .str "time_period", .str "creative_work", .str "biological_entity",
      .str "natural_phenomenon"]),
    ("Relations", .arr [
      .str "is_a", .str "part_of", .str "located_in", .str "created_by", .str "used_by",
      .str "participates_in", .str "related_to", .str "belongs_to", .str "influences",
      .str "precedes", .str "arrives_in", .str "comparable_to"]),
    ("Attributes", .arr [
      .str "name", .str "date", .str "size", .str "type", .str "description", .str "status",
      .str "quantity", .str "value", .str "position", .str "duration", .str "time"])]

/-- `_default_prompts()`: placeholder prompts. -/
def default_prompts : Json :=
  .obj [("construction", .str ""), ("decomposition", .str ""), ("retrieval", .str "")]

/-- `_load_index()`: empty list if the index file is absent, malformed, or
not a JSON list; otherwise its elements.  Every failure is caught (warning
logged), never raised. -/
def loadIndex : FileData → List Json
  | .absent => []
  | .malformed => []
  | .json (.arr elts) => elts
  | .json _ => []

/-- `get_knowledge_base(kb_id)`: `none` when the record directory does not
exist; otherwise assembles `{"id": kb_id}` updated with the parsed
metadata (parse failures caught with a warning, fields stay absent), then
`result["schema"]` from the schema file or `_default_schema()` on absence
or parse failure, then `result["prompts"]` likewise.  A metadata file that
parses to a non-dict makes `result.update(meta)` raise inside the `try`,
which is caught, leaving `result` unchanged (the exotic case of a JSON
array of two-element arrays, which `dict.update` would accept, is not
modelled; no claim depends on it). -/
def get_knowledge_base (s : Store) (kb_id : String) : Option (List (String × Json)) :=
  match findDir s kb_id with
  | none => none
  | some d =>
    let result : List (String × Json) := [("id", .str kb_id)]
    let result := match d.meta with
      | .json (.obj m) => dictUpdate result m
      | _ => result
    let result := match d.schema with
      | .json j => dictSet result "schema" j
      | _ => dictSet result "schema" default_schema
    let result := match d.prompts with
      | .json j => dictSet result "prompts" j
      | _ => dictSet result "prompts" default_prompts
    some result

/-- The fallback summary used by `list_knowledge_bases` when the record's
metadata file is absent or fails to load: built from the index entry's own
fields. -/
def fallbackSummary (kvs : List (String × Json)) (kb_id : String) : List (String × Json) :=
  [("id", .str kb_id),
   ("name", getD kvs "name" (.str kb_id)),
   ("dataset_name", getD kvs "dataset_name" (.str "")),
   ("created_at", getD kvs "created_at" (.str "")),
   ("updated_at", getD kvs "updated_at" (.str ""))]

/-- The summary `list_knowledge_bases` builds for one index entry (fields
`kvs`) whose id `kb_id` is a truthy string.  When `meta.json` for `kb_id`
exists and parses to a dict, the summary is built from the metadata alone
(with fallbacks `kb_id` for name and `""` for the rest); any read or parse
failure — including a metadata document that is not a dict, whose `.get`
raises inside the `try` — and a missing metadata file both fall back to
the index entry's fields. -/
def summaryFor (s : Store) (kvs : List (String × Json)) (kb_id : String) :
    List (String × Json) :=
  match findDir s kb_id with
  | some d =>
    match d.meta with
    | .json (.obj m) =>
      [("id", .str kb_id),
       ("name", getD m "name" (.str kb_id)),
       ("dataset_name", getD m "dataset_name" (.str "")),
       ("created_at", getD m "created_at" (.str "")),
       ("updated_at", getD m "updated_at" (.str ""))]
    | _ => fallbackSummary kvs kb_id
  | none => fallbackSummary kvs kb_id

/-- The loop body of `list_knowledge_bases` over the loaded index entries.
`entry.get("id")` on a non-dict entry raises `AttributeError` (uncaught),
and `_kb_dir(kb_id)` on a truthy non-string id raises `TypeError`
(uncaught): both are `.error ()`.  A missing or falsy id skips the entry
(`continue`). -/
def listEntries (s : Store) : List Json → Except Unit (List (List (String × Json)))
  | [] => .ok []
  | .obj kvs :: rest =>
    match lookup kvs "id" with
    | none => listEntries s rest
    | some v =>
      if pyTruthy v then
        match v with
        | .str kb_id => do
          let r ← listEntries s rest
          .ok (summaryFor s kvs kb_id :: r)
        | _ => .error ()
      else listEntries s rest
  | _ :: _ => .error ()

/-- `list_knowledge_bases()`: one summary per index entry with a truthy id,
in index order. -/
def list_knowledge_bases (s : Store) : Except Unit (List (List (String × Json))) :=
  listEntries s (loadIndex s.index)

/-- `create_knowledge_base(name, dataset_name, schema, prompts)`.  The
generated id (`str(uuid.uuid4())[:8]`) and the clock reading `now` are
parameters.  Creates the record directory, writes metadata with both
timestamps set to `now`, writes the given or default schema and prompts,
appends a summary entry to the (re-loaded) index, saves it, and returns
`get_knowledge_base(kb_id)` on the resulting store. -/
def create_knowledge_base (s : Store) (kb_id now : String) (name dataset_name : String)
    (schema prompts : Option Json) : Store × Option (List (String × Json)) :=
  let meta : Json := .obj [("id", .str kb_id), ("name", .str name),
    ("dataset_name", .str dataset_name), ("created_at", .str now), ("updated_at", .str now)]
  let d : KBDir := {
    meta := .json meta,
    schema := .json (schema.getD default_schema),
    prompts := .json (prompts.getD default_prompts) }
  let s1 : Store := { s with dirs := dirSet s.dirs kb_id d }
  let entries := loadIndex s1.index ++ [Json.obj [("id", .str kb_id), ("name", .str name),
    ("dataset_name", .str dataset_name), ("created_at", .str now), ("updated_at", .str now)]]
  let s2 : Store := { s1 with index := .json (.arr entries) }
  (s2, get_knowledge_base s2 kb_id)

/-- The metadata load at the start of `update_knowledge_base`: `meta = {}`
when the file is missing; otherwise `json.load` with NO try/except, so a
malformed file raises (uncaught).  A file parsing to a non-dict also
raises, at the uncaught `meta[...] = ...` assignments that follow. -/
def readMetaForUpdate : FileData → Except Unit (List (String × Json))
  | .absent => .ok []
  | .malformed => .error ()
  | .json (.obj m) => .ok m
  | .json _ => .error ()

/-- The metadata mutation of `update_knowledge_base`: assign `name` and
`dataset_name` when supplied, then stamp `updated_at` to `now` and force
`id` to `kb_id`. -/
def applyFieldUpdates (m : List (String × Json)) (name dataset_name : Option String)
    (now kb_id : String) : List (String × Json) :=
  let m1 := match name with
    | some n => dictSet m "name" (.str n)
    | none => m
  let m2 := match dataset_name with
    | some n => dictSet m1 "dataset_name" (.str n)
    | none => m1
  dictSet (dictSet m2 "updated_at" (.str now)) "id" (.str kb_id)

/-- The record directory after `update_knowledge_base` has re-written
`meta.json` (always) and overwritten `schema.json` / `prompts.json`
wholesale when supplied. -/
def updatedDir (d : KBDir) (m4 : List (String × Json)) (schema prompts : Option Json) : KBDir :=
  { meta := .json (.obj m4),
    schema := match schema with
      | some j => .json j
      | none => d.schema,
    prompts := match prompts with
      | some j => .json j
      | none => d.prompts }

/-- Does `entry.get("id") == kb_id` hold for a dict index entry?  In Python
a string compares equal only to an equal string, and `None` (missing key)
is never equal to a string. -/
def objIdEq (kvs : List (String × Json)) (kb_id : String) : Bool :=
  match lookup kvs "id" with
  | some (.str t) => t == kb_id
  | _ => false

/-- The index-entry replacement loop of `update_knowledge_base`: find the
first entry whose id equals `kb_id`, replace it with a fresh summary built
from the updated metadata `meta` (preserving `created_at` from the
metadata, falling back to the old entry's), and stop (`break`); entries
with no match are kept.  `entry.get` on a non-dict entry raises
(uncaught). -/
def updateIndexEntries (kb_id now : String) (meta : List (String × Json)) :
    List Json → Except Unit (List Json)
  | [] => .ok []
  | .obj kvs :: rest =>
    if objIdEq kvs kb_id then
      .ok (.obj [("id", .str kb_id),
        ("name", getD meta "name" (.str kb_id)),
        ("dataset_name", getD meta "dataset_name" (.str "")),
        ("created_at", getD meta "created_at" (getD kvs "created_at" (.str ""))),
        ("updated_at", .str now)] :: rest)
    else do
      let r ← updateIndexEntries kb_id now meta rest
      .ok (.obj kvs :: r)
  | _ :: _ => .error ()

/-- `update_knowledge_base(kb_id, name, dataset_name, schema, prompts)`.
Returns the store as left on disk (writes before a raise are kept) and
either `.error ()` (an exception escaped to the caller) or the Python
return value: `none` when the record's directory is absent, otherwise
`get_knowledge_base(kb_id)` re-read after all writes. -/
def update_knowledge_base (s : Store) (kb_id now : String)
    (name dataset_name : Option String) (schema prompts : Option Json) :
    Store × Except Unit (Option (List (String × Json))) :=
  match findDir s kb_id with
  | none => (s, .ok none)
  | some d =>
    match readMetaForUpdate d.meta with
    | .error _ => (s, .error ())
    | .ok m0 =>
      let m4 := applyFieldUpdates m0 name dataset_name now kb_id
      let d3 := updatedDir d m4 schema prompts
      let s1 : Store := { s with dirs := dirSet s.dirs kb_id d3 }
      match updateIndexEntries kb_id now m4 (loadIndex s1.index) with
      | .error _ => (s1, .error ())
      | .ok entries =>
        let s2 : Store := { s1 with index := .json (.arr entries) }
        (s2, .ok (get_knowledge_base s2 kb_id))

/-- The filtering of the index in `delete_knowledge_base`:
`[e for e in index if e.get("id") != kb_id]`.  `e.get` on a non-dict entry
raises (uncaught); the comprehension is evaluated in full before the index
file is rewritten. -/
def filterIndex (kb_id : String) : List Json → Except Unit (List Json)
  | [] => .ok []
  | .obj kvs :: rest => do
    let r ← filterIndex kb_id rest
    if objIdEq kvs kb_id then .ok r else .ok (.obj kvs :: r)
  | _ :: _ => .error ()

/-- `delete_knowledge_base(kb_id)`: `false` when the record's directory is
absent; otherwise removes the directory tree, filters the index, saves it
and returns `true`.  If the index filtering raises, the directory is
already gone but the index file is untouched. -/
def delete_knowledge_base (s : Store) (kb_id : String) : Store × Except Unit Bool :=
  match findDir s kb_id with
  | none => (s, .ok false)
  | some _ =>
    let s1 : Store := { s with dirs := dirRemove s.dirs kb_id }
    match filterIndex kb_id (loadIndex s1.index) with
    | .error _ => (s1, .error ())
    | .ok entries => ({ s1 with index := .json (.arr entries) }, .ok true)

/-- `get_schema_path_for_kb(kb_id)`: the path string when the schema file
exists on disk (a malformed file still exists), else `None`. -/
def get_schema_path_for_kb (s : Store) (kb_id : String) : Option String :=
  match findDir s kb_id with
  | none => none
  | some d =>
    match d.schema with
    | .absent => none
    | _ => some ("kb_store/" ++ kb_id ++ "/schema.json")

/-- `get_schema_dict_for_kb(kb_id)`: `None` when the record does not exist,
else `kb.get("schema")` from the full record. -/
def get_schema_dict_for_kb (s : Store) (kb_id : String) : Option Json :=
  match get_knowledge_base s kb_id with
  | none => none
  | some kb => lookup kb "schema"

/-- `get_prompts_for_kb(kb_id)`: `None` when the record does not exist,
else `kb.get("prompts")` from the full record. -/
def get_prompts_for_kb (s : Store) (kb_id : String) : Option Json :=
  match get_knowledge_base s kb_id with
  | none => none
  | some kb => lookup kb "prompts"

/-- The `schema` value `get_knowledge_base` stores in the record, as a
function of the schema file slot: the parsed content when the file parses,
`_default_schema()` when it is absent or malformed. -/
def schemaVal : FileData → Json
  | .json j => j
  | _ => default_schema

/-- The `prompts` value `get_knowledge_base` stores in the record. -/
def promptsVal : FileData → Json
  | .json j => j
  | _ => default_prompts

/-- A well-shaped index entry: a JSON dict whose `id` field, when present,
is either a string or falsy.  Every entry the module itself ever writes
into the index has this shape; entries outside it make `entry.get` or
`_kb_dir` raise in the listing/update/delete loops. -/
def entryWF : Json → Bool
  | .obj kvs =>
    match lookup kvs "id" with
    | none => true
    | some (.str _) => true
    | some v => !pyTruthy v
  | _ => false

/-- Well-shaped index file: every loaded entry is well shaped. -/
def indexWF (f : FileData) : Bool :=
  (loadIndex f).all entryWF

/-- Argument bundle for one `update_knowledge_base` call on a fixed record
(the clock reading and the four optional fields). -/
structure UpdateArgs where
  now : String
  name : Option String
  dataset_name : Option String
  schema : Option Json
  prompts : Option Json

/-- Apply a sequence of `update_knowledge_base` calls to the same record,
threading the on-disk state (the Python return values are discarded). -/
def applyUpdates (kb_id : String) : Store → List UpdateArgs → Store
  | s, [] => s
  | s, a :: rest =>
    applyUpdates kb_id
      (update_knowledge_base s kb_id a.now a.name a.dataset_name a.schema a.prompts).1 rest

/-- The parsed metadata dict of a record, when its directory exists and its
metadata file parses to a dict. -/
def metaObj (s : Store) (kb_id : String) : Option (List (String × Json)) :=
  match findDir s kb_id with
  | some d =>
    match d.meta with
    | .json (.obj m) => some m
    | _ => none
  | none => none

/-- The record `get_knowledge_base` assembles for an existing directory
`d`: `{"id": kb_id}` updated with the metadata dict when it parses, then
the `schema` and `prompts` values read from the files (or defaulted). -/
def assembleRecord (kb_id : String) (d : KBDir) : List (String × Json) :=
  let base : List (String × Json) :=
    match d.meta with
    | .json (.obj m) => dictUpdate [("id", .str kb_id)] m
    | _ => [("id", .str kb_id)]
  dictSet (dictSet base "schema" (schemaVal d.schema)) "prompts" (promptsVal d.prompts)

/-- A store whose single record `kb1` has a metadata file that exists but
is not valid JSON. -/
def storeMalformedMeta : Store :=
  { dirs := [("kb1", ⟨.malformed, .absent, .absent⟩)], index := .absent }

/-- A store whose single record `kb1` exists (with well-formed metadata)
but has no schema file on disk. -/
def storeNoSchemaFile : Store :=
  { dirs := [("kb1",
      ⟨.json (.obj [("id", .str "kb1"), ("name", .str "n")]), .absent, .absent⟩)],
    index := .absent }

/-- A store where the index entry for `k1` carries a `name` field but the
record's metadata file parses to the empty dict `{}`. -/
def storeIndexName : Store :=
  { dirs := [("k1", ⟨.json (.obj []), .absent, .absent⟩)],
    index := .json (.arr [.obj [("id", .str "k1"), ("name", .str "fromIndex")]]) }

/-- A store whose index file holds a JSON list with a non-dict element. -/
def storeBadIndexEntry : Store :=
  { dirs := [], index := .json (.arr [.str "oops"]) }

/-! ## Basic association-list lemmas -/

theorem lookup_dictSet_self (d : List (String × Json)) (k : String) (v : Json) :
    lookup (dictSet d k v) k = some v := by
  induction d with
  | nil => simp [dictSet, lookup]
  | cons kv rest ih =>
    obtain ⟨k', v'⟩ := kv
    by_cases h : k' = k
    · simp [dictSet, h, lookup]
    · simp [dictSet, h, lookup, ih]

theorem lookup_dictSet_ne (d : List (String × Json)) (k k' : String) (v : Json)
    (h : k' ≠ k) : lookup (dictSet d k v) k' = lookup d k' := by
  induction d with
  | nil => simp [dictSet, lookup, Ne.symm h]
  | cons kv rest ih =>
    obtain ⟨k'', v''⟩ := kv
    by_cases hk : k'' = k
    · subst hk
      simp [dictSet, lookup, Ne.symm h]
    · by_cases hk' : k'' = k'
      · subst hk'
        simp [dictSet, h, lookup]
      · simp [dictSet, hk, lookup, hk', ih]

theorem isSome_lookup_dictSet (d : List (String × Json)) (k k' : String) (v : Json)
    (h : (lookup d k').isSome = true) : (lookup (dictSet d k v) k').isSome = true := by
  by_cases hk : k' = k
  · subst hk
    simp [lookup_dictSet_self]
  · rw [lookup_dictSet_ne d k k' v hk]
    exact h

theorem isSome_lookup_dictUpdate (d e : List (String × Json)) (k : String)
    (h : (lookup d k).isSome = true) : (lookup (dictUpdate d e) k).isSome = true := by
  induction e generalizing d with
  | nil => exact h
  | cons kv rest ih =>
    simp only [dictUpdate, List.foldl_cons] at ih ⊢
    exact ih _ (isSome_lookup_dictSet _ _ _ _ h)

theorem lookupDir_dirSet_self (ds : List (String × KBDir)) (k : String) (d : KBDir) :
    lookupDir (dirSet ds k d) k = some d := by
  induction ds with
  | nil => simp [dirSet, lookupDir]
  | cons kv rest ih =>
    obtain ⟨k', v'⟩ := kv
    by_cases h : k' = k
    · simp [dirSet, h, lookupDir]
    · simp [dirSet, h, lookupDir, ih]

theorem lookupDir_dirRemove_self (ds : List (String × KBDir)) (k : String) :
    lookupDir (dirRemove ds k) k = none := by
  induction ds with
  | nil => simp [dirRemove, lookupDir]
  | cons kv rest ih =>
    obtain ⟨k', v'⟩ := kv
    by_cases h : k' = k
    · simpa [dirRemove, h] using ih
    · simpa [dirRemove, h, lookupDir] using ih

theorem get_knowledge_base_eq_some (s : Store) (kb_id : String) (d : KBDir)
    (h : findDir s kb_id = some d) :
    get_knowledge_base s kb_id = some (assembleRecord kb_id d) := by
  obtain ⟨dm, ds, dp⟩ := d
  cases dm with
  | json j =>
    cases j <;> cases ds <;> cases dp <;>
      simp [get_knowledge_base, h, assembleRecord, schemaVal, promptsVal]
  | absent => cases ds <;> cases dp <;>
      simp [get_knowledge_base, h, assembleRecord, schemaVal, promptsVal]
  | malformed => cases ds <;> cases dp <;>
      simp [get_knowledge_base, h, assembleRecord, schemaVal, promptsVal]

theorem lookup_assembleRecord_prompts (kb_id : String) (d : KBDir) :
    lookup (assembleRecord kb_id d) "prompts" = some (promptsVal d.prompts) :=
  lookup_dictSet_self _ _ _

theorem lookup_assembleRecord_schema (kb_id : String) (d : KBDir) :
    lookup (assembleRecord kb_id d) "schema" = some (schemaVal d.schema) := by
  unfold assembleRecord
  rw [lookup_dictSet_ne _ _ _ _ (by decide), lookup_dictSet_self]

theorem lookup_summaryFor_id (s : Store) (kvs : List (String × Json)) (t : String) :
    lookup (summaryFor s kvs t) "id" = some (.str t) := by
  cases hf : findDir s t with
  | none => simp [summaryFor, fallbackSummary, hf, lookup]
  | some d =>
    cases hm : d.meta with
    | json j => cases j <;> simp [summaryFor, fallbackSummary, hf, hm, lookup]
    | absent => simp [summaryFor, fallbackSummary, hf, hm, lookup]
    | malformed => simp [summaryFor, fallbackSummary, hf, hm, lookup]

theorem listEntries_cons_kept (s : Store) (kvs : List (String × Json)) (t : String)
    (rest : List Json) (hid : lookup kvs "id" = some (.str t)) (ht : t ≠ "") :
    listEntries s (.obj kvs :: rest)
      = (listEntries s rest).map (fun r => summaryFor s kvs t :: r) := by
  have htr : pyTruthy (.str t) = true := by simp [pyTruthy, ht]
  simp only [listEntries, hid, htr, if_true]
  cases hrest : listEntries s rest with
  | error e => rfl
  | ok r => rfl

theorem listEntries_wf_ok (s : Store) (l : List Json) (h : l.all entryWF = true) :
    ∃ sums, listEntries s l = .ok sums
      ∧ ∀ r ∈ sums, ∃ kvs t, Json.obj kvs ∈ l
          ∧ lookup kvs "id" = some (.str t) ∧ t ≠ ""
          ∧ lookup r "id" = some (.str t) := by
  induction l with
  | nil => exact ⟨[], rfl, by simp⟩
  | cons e rest ih =>
    rw [List.all_cons, Bool.and_eq_true] at h
    obtain ⟨he, hrest⟩ := h
    obtain ⟨sums, hok, hprop⟩ := ih hrest
    have weaken : ∀ r ∈ sums, ∃ kvs t, Json.obj kvs ∈ e :: rest
        ∧ lookup kvs "id" = some (.str t) ∧ t ≠ "" ∧ lookup r "id" = some (.str t) := by
      intro r hr
      obtain ⟨kvs', t, hmem, h1, h2, h3⟩ := hprop r hr
      exact ⟨kvs', t, List.mem_cons_of_mem _ hmem, h1, h2, h3⟩
    cases e with
    | obj kvs =>
      cases hid : lookup kvs "id" with
      | none =>
        refine ⟨sums, ?_, weaken⟩
        simpa [listEntries, hid] using hok
      | some v =>
        by_cases htr : pyTruthy v = true
        · have hstr : ∃ t, v = Json.str t := by
            rw [entryWF, hid] at he
            cases v with
            | str t => exact ⟨t, rfl⟩
            | null => simp [pyTruthy] at htr
            | bool b => simp at he; simp [he] at htr
            | num n => simp at he; simp [he] at htr
            | arr elts => simp at he; simp [he] at htr
            | obj kvs' => simp at he; simp [he] at htr
          obtain ⟨t, rfl⟩ := hstr
          have ht : t ≠ "" := by simpa [pyTruthy] using htr
          refine ⟨summaryFor s kvs t :: sums, ?_, ?_⟩
          · rw [listEntries_cons_kept s kvs t rest hid ht, hok]
            rfl
          · intro r hr
            rcases List.mem_cons.mp hr with rfl | hr'
            · exact ⟨kvs, t, List.mem_cons_self _ _, hid, ht, lookup_summaryFor_id s kvs t⟩
            · exact weaken r hr'
        · rw [Bool.not_eq_true] at htr
          refine ⟨sums, ?_, weaken⟩
          simpa [listEntries, hid, htr] using hok
    | null => simp [entryWF] at he
    | bool b => simp [entryWF] at he
    | num n => simp [entryWF] at he
    | str t => simp [entryWF] at he
    | arr elts => simp [entryWF] at he

theorem lookup_applyFieldUpdates_created (m : List (String × Json))
    (name dataset_name : Option String) (now kb_id : String) :
    lookup (applyFieldUpdates m name dataset_name now kb_id) "created_at"
      = lookup m "created_at" := by
  unfold applyFieldUpdates
  rw [lookup_dictSet_ne _ _ _ _ (by decide), lookup_dictSet_ne _ _ _ _ (by decide)]
  cases dataset_name with
  | none =>
    cases name with
    | none => rfl
    | some n => rw [lookup_dictSet_ne _ _ _ _ (by decide)]
  | some n2 =>
    rw [lookup_dictSet_ne _ _ _ _ (by decide)]
    cases name with
    | none => rfl
    | some n => rw [lookup_dictSet_ne _ _ _ _ (by decide)]

theorem lookup_applyFieldUpdates_updated (m : List (String × Json))
    (name dataset_name : Option String) (now kb_id : String) :
    lookup (applyFieldUpdates m name dataset_name now kb_id) "updated_at"
      = some (.str now) := by
  unfold applyFieldUpdates
  rw [lookup_dictSet_ne _ _ _ _ (by decide), lookup_dictSet_self]

theorem lookup_applyFieldUpdates_name_some (m : List (String × Json))
    (dataset_name : Option String) (now kb_id n : String) :
    lookup (applyFieldUpdates m (some n) dataset_name now kb_id) "name"
      = some (.str n) := by
  unfold applyFieldUpdates
  rw [lookup_dictSet_ne _ _ _ _ (by decide), lookup_dictSet_ne _ _ _ _ (by decide)]
  cases dataset_name with
  | none => exact lookup_dictSet_self _ _ _
  | some n2 =>
    rw [lookup_dictSet_ne _ _ _ _ (by decide)]
    exact lookup_dictSet_self _ _ _

theorem lookup_applyFieldUpdates_dataset_none (m : List (String × Json))
    (name : Option String) (now kb_id : String) :
    lookup (applyFieldUpdates m name none now kb_id) "dataset_name"
      = lookup m "dataset_name" := by
  unfold applyFieldUpdates
  rw [lookup_dictSet_ne _ _ _ _ (by decide), lookup_dictSet_ne _ _ _ _ (by decide)]
  cases name with
  | none => rfl
  | some n => rw [lookup_dictSet_ne _ _ _ _ (by decide)]

theorem update_dirs_eq (s : Store) (kb_id now : String) (name dataset_name : Option String)
    (schema prompts : Option Json) (d : KBDir) (m0 : List (String × Json))
    (hf : findDir s kb_id = some d) (hm : readMetaForUpdate d.meta = .ok m0) :
    (update_knowledge_base s kb_id now name dataset_name schema prompts).1.dirs
      = dirSet s.dirs kb_id
          (updatedDir d (applyFieldUpdates m0 name dataset_name now kb_id) schema prompts) := by
  unfold update_knowledge_base
  simp only [hf, hm]
  cases updateIndexEntries kb_id now (applyFieldUpdates m0 name dataset_name now kb_id)
      (loadIndex s.index) with
  | error e => rfl
  | ok entries => rfl

theorem filterIndex_wf_ok (kb_id : String) (l : List Json) (h : l.all entryWF = true) :
    ∃ out, filterIndex kb_id l = .ok out
      ∧ out.all entryWF = true
      ∧ ∀ e ∈ out, ∀ kvs, e = Json.obj kvs → objIdEq kvs kb_id = false := by
  induction l with
  | nil => exact ⟨[], rfl, rfl, by simp⟩
  | cons e rest ih =>
    rw [List.all_cons, Bool.and_eq_true] at h
    obtain ⟨he, hrest⟩ := h
    obtain ⟨out, hok, hwf, hprop⟩ := ih hrest
    cases e with
    | obj kvs =>
      by_cases hid : objIdEq kvs kb_id = true
      · refine ⟨out, ?_, hwf, hprop⟩
        simp only [filterIndex, hok, hid]
        rfl
      · rw [Bool.not_eq_true] at hid
        refine ⟨.obj kvs :: out, ?_, ?_, ?_⟩
        · simp only [filterIndex, hok, hid]
          rfl
        · rw [List.all_cons, Bool.and_eq_true]
          exact ⟨he, hwf⟩
        · intro e' he' kvs' heq
          rcases List.mem_cons.mp he' with rfl | hmem
          · injection heq with h'
            rw [← h']
            exact hid
          · exact hprop e' hmem kvs' heq
    | null => simp [entryWF] at he
    | bool b => simp [entryWF] at he
    | num n => simp [entryWF] at he
    | str t => simp [entryWF] at he
    | arr elts => simp [entryWF] at he

/-! ## Claims -/

/-- C1, counterexample: the claim says an update on a record whose metadata
file exists but is malformed still returns a full record rather than
raising; on the concrete store `storeMalformedMeta` the record `kb1`
exists, its metadata file is malformed, and `update_knowledge_base` lets
the parse failure escape to the caller. -/
theorem claim_C1_counterexample :
    findDir storeMalformedMeta "kb1" = some ⟨.malformed, .absent, .absent⟩
    ∧ (update_knowledge_base storeMalformedMeta "kb1" "t" none none none none).2 = .error () :=
  ⟨rfl, rfl⟩

/-- C1, amended: when a record's metadata file exists but is malformed,
`get_knowledge_base` still returns a full record (omitting the metadata
fields), `list_knowledge_bases` falls back to the index entry's fields for
that record's summary, and a malformed index file loads as the empty
index — but `update_knowledge_base` propagates the metadata parse failure
to the caller instead of returning a record. -/
theorem claim_C1_malformed_data (s : Store) (kb_id now : String)
    (name dataset_name : Option String) (schema prompts : Option Json)
    (d : KBDir) (kvs : List (String × Json))
    (hd : findDir s kb_id = some d) (hm : d.meta = .malformed) :
    (update_knowledge_base s kb_id now name dataset_name schema prompts).2 = .error ()
    ∧ (get_knowledge_base s kb_id).isSome = true
    ∧ summaryFor s kvs kb_id = fallbackSummary kvs kb_id
    ∧ loadIndex .malformed = [] := by
  refine ⟨?_, ?_, ?_, rfl⟩
  · simp [update_knowledge_base, hd, hm, readMetaForUpdate]
  · rw [get_knowledge_base_eq_some s kb_id d hd]
    rfl
  · simp [summaryFor, hd, hm]

/-- C1, witness: the amended statement instantiated on `storeMalformedMeta`. -/
theorem claim_C1_malformed_data_witness :
    (update_knowledge_base storeMalformedMeta "kb1" "t" none none none none).2 = .error ()
    ∧ (get_knowledge_base storeMalformedMeta "kb1").isSome = true
    ∧ summaryFor storeMalformedMeta [] "kb1" = fallbackSummary [] "kb1"
    ∧ loadIndex .malformed = [] :=
  claim_C1_malformed_data storeMalformedMeta "kb1" "t" none none none none
    ⟨.malformed, .absent, .absent⟩ [] rfl rfl

/-- C2: creating a record returns exactly the freshly re-read full record,
and fetching the new id yields a record whose `name`, `dataset_name`,
`schema` and `prompts` are exactly the supplied values (or the module
defaults when omitted). -/
theorem claim_C2_create_then_get (s : Store) (kb_id now name dataset_name : String)
    (schema prompts : Option Json) :
    (create_knowledge_base s kb_id now name dataset_name schema prompts).2
      = get_knowledge_base
          (create_knowledge_base s kb_id now name dataset_name schema prompts).1 kb_id
    ∧ ∃ rec,
        get_knowledge_base
          (create_knowledge_base s kb_id now name dataset_name schema prompts).1 kb_id
          = some rec
        ∧ lookup rec "id" = some (.str kb_id)
        ∧ lookup rec "name" = some (.str name)
        ∧ lookup rec "dataset_name" = some (.str dataset_name)
        ∧ lookup rec "schema" = some (schema.getD default_schema)
        ∧ lookup rec "prompts" = some (prompts.getD default_prompts) := by
  refine ⟨rfl, ?_⟩
  have hd : findDir (create_knowledge_base s kb_id now name dataset_name schema prompts).1 kb_id
      = some ⟨.json (.obj [("id", .str kb_id), ("name", .str name),
          ("dataset_name", .str dataset_name), ("created_at", .str now),
          ("updated_at", .str now)]),
        .json (schema.getD default_schema), .json (prompts.getD default_prompts)⟩ :=
    lookupDir_dirSet_self _ _ _
  rw [get_knowledge_base_eq_some _ _ _ hd]
  exact ⟨_, rfl, rfl, rfl, rfl, rfl, rfl⟩

/-- C3, counterexample: the claim says each accessor falls through to a
default-filled value (rather than not-found) when the record exists but
its sub-document file is missing; on `storeNoSchemaFile` the record `kb1`
exists, its schema file is missing, and `get_schema_path_for_kb` returns
not-found. -/
theorem claim_C3_counterexample :
    (findDir storeNoSchemaFile "kb1").isSome = true
    ∧ get_schema_path_for_kb storeNoSchemaFile "kb1" = none :=
  ⟨rfl, rfl⟩

/-- C3, amended: all three accessors return not-found when the record does
not exist; when the record exists, `get_schema_dict_for_kb` and
`get_prompts_for_kb` fall through to the default-filled values of
`get_knowledge_base` when the corresponding file is missing, but
`get_schema_path_for_kb` returns not-found whenever the schema file is
absent on disk, even though the record exists (and a path exactly when
the file exists). -/
theorem claim_C3_accessors (s : Store) (kb_id : String) :
    (findDir s kb_id = none →
      get_schema_path_for_kb s kb_id = none
      ∧ get_schema_dict_for_kb s kb_id = none
      ∧ get_prompts_for_kb s kb_id = none)
    ∧ (∀ d, findDir s kb_id = some d →
        get_schema_dict_for_kb s kb_id = some (schemaVal d.schema)
        ∧ get_prompts_for_kb s kb_id = some (promptsVal d.prompts)
        ∧ (d.schema = .absent →
            get_schema_dict_for_kb s kb_id = some default_schema
            ∧ get_schema_path_for_kb s kb_id = none)
        ∧ (d.prompts = .absent → get_prompts_for_kb s kb_id = some default_prompts)
        ∧ (d.schema ≠ .absent → (get_schema_path_for_kb s kb_id).isSome = true)) := by
  constructor
  · intro h
    refine ⟨?_, ?_, ?_⟩ <;>
      simp [get_schema_path_for_kb, get_schema_dict_for_kb, get_prompts_for_kb,
        get_knowledge_base, h]
  · intro d hd
    have hget := get_knowledge_base_eq_some s kb_id d hd
    have hs : get_schema_dict_for_kb s kb_id = some (schemaVal d.schema) := by
      simp [get_schema_dict_for_kb, hget, lookup_assembleRecord_schema]
    have hp : get_prompts_for_kb s kb_id = some (promptsVal d.prompts) := by
      simp [get_prompts_for_kb, hget, lookup_assembleRecord_prompts]
    refine ⟨hs, hp, ?_, ?_, ?_⟩
    · intro habs
      exact ⟨by rw [hs, habs]; rfl, by simp [get_schema_path_for_kb, hd, habs]⟩
    · intro habs
      rw [hp, habs]
      rfl
    · intro hne
      cases hsch : d.schema
      · exact absurd hsch hne
      · simp [get_schema_path_for_kb, hd, hsch]
      · simp [get_schema_path_for_kb, hd, hsch]

/-- C3, witness: the amended statement instantiated on `storeNoSchemaFile`
(record exists, schema and prompts files missing). -/
theorem claim_C3_accessors_witness :
    get_schema_dict_for_kb storeNoSchemaFile "kb1" = some default_schema
    ∧ get_schema_path_for_kb storeNoSchemaFile "kb1" = none :=
  ((claim_C3_accessors storeNoSchemaFile "kb1").2
    ⟨.json (.obj [("id", .str "kb1"), ("name", .str "n")]), .absent, .absent⟩ rfl).2.2.1 rfl

/-- C7, counterexample: the claim says a field present in the index entry
but absent from the (parsed) metadata still comes from the index entry; on
`storeIndexName` the index entry for `k1` carries `name = "fromIndex"`,
the metadata file parses to the empty dict, and the returned summary's
`name` is the record id `"k1"`, not `"fromIndex"`. -/
theorem claim_C7_counterexample :
    loadIndex storeIndexName.index = [.obj [("id", .str "k1"), ("name", .str "fromIndex")]]
    ∧ metaObj storeIndexName "k1" = some []
    ∧ list_knowledge_bases storeIndexName =
        .ok [[("id", .str "k1"), ("name", .str "k1"), ("dataset_name", .str ""),
              ("created_at", .str ""), ("updated_at", .str "")]]
    ∧ Json.str "k1" ≠ Json.str "fromIndex" :=
  ⟨rfl, rfl, rfl, by intro h; injection h with h'; exact absurd h' (by decide)⟩

/-- C7, amended: each summary comes from one index entry; when the record's
metadata file parses as a dict, the summary is built from the metadata
alone — a field absent from the metadata defaults to the record id (for
`name`) or the empty string, not to the index entry's field — and the
index entry's own fields are used only when the metadata file is absent
or fails to load. -/
theorem claim_C7_list_merge (s : Store) (kvs kvs' : List (String × Json)) (kb_id : String) :
    (∀ d m, findDir s kb_id = some d → d.meta = .json (.obj m) →
      summaryFor s kvs kb_id = summaryFor s kvs' kb_id
      ∧ lookup (summaryFor s kvs kb_id) "name" = some (getD m "name" (.str kb_id))
      ∧ lookup (summaryFor s kvs kb_id) "dataset_name" = some (getD m "dataset_name" (.str "")))
    ∧ (∀ d, findDir s kb_id = some d → d.meta = .absent ∨ d.meta = .malformed →
        summaryFor s kvs kb_id = fallbackSummary kvs kb_id)
    ∧ (findDir s kb_id = none → summaryFor s kvs kb_id = fallbackSummary kvs kb_id)
    ∧ (∀ rest, lookup kvs "id" = some (.str kb_id) → kb_id ≠ "" →
        listEntries s (.obj kvs :: rest)
          = (listEntries s rest).map (fun r => summaryFor s kvs kb_id :: r)) := by
  refine ⟨?_, ?_, ?_, ?_⟩
  · intro d m hd hm
    refine ⟨?_, ?_, ?_⟩ <;> simp [summaryFor, hd, hm, lookup]
  · intro d hd hm
    rcases hm with hm | hm <;> simp [summaryFor, hd, hm]
  · intro h
    simp [summaryFor, h]
  · intro rest hid hne
    exact listEntries_cons_kept s kvs kb_id rest hid hne

/-- C7, witness: the amended statement instantiated on `storeIndexName`
(metadata parses to `{}`, index entry carries a `name`). -/
theorem claim_C7_list_merge_witness :
    summaryFor storeIndexName [("id", Json.str "k1"), ("name", Json.str "fromIndex")] "k1"
      = summaryFor storeIndexName [] "k1"
    ∧ lookup (summaryFor storeIndexName
        [("id", Json.str "k1"), ("name", Json.str "fromIndex")] "k1") "name"
      = some (getD [] "name" (.str "k1"))
    ∧ lookup (summaryFor storeIndexName
        [("id", Json.str "k1"), ("name", Json.str "fromIndex")] "k1") "dataset_name"
      = some (getD [] "dataset_name" (.str "")) :=
  (claim_C7_list_merge storeIndexName
      [("id", Json.str "k1"), ("name", Json.str "fromIndex")] [] "k1").1
    ⟨.json (.obj []), .absent, .absent⟩ [] rfl rfl

/-- C10, counterexample: the claim says that for every index content a
malformed id-less entry produces no output entry and no error; on
`storeBadIndexEntry` the (well-formed JSON) index holds the single
non-dict entry `"oops"`, and listing raises (`entry.get` on a non-dict)
instead of skipping it. -/
theorem claim_C10_counterexample :
    loadIndex storeBadIndexEntry.index = [.str "oops"]
    ∧ list_knowledge_bases storeBadIndexEntry = .error () :=
  ⟨rfl, rfl⟩

/-- C10, amended: index entries that are dicts with a missing or falsy id
are silently skipped, and every summary returned carries a non-empty
string id; but an index entry that is not a dict makes the listing raise
rather than being skipped. -/
theorem claim_C10_id_skipping (s : Store) :
    (indexWF s.index = true →
      ∃ sums, list_knowledge_bases s = .ok sums
        ∧ ∀ r ∈ sums, ∃ t, lookup r "id" = some (.str t) ∧ t ≠ "")
    ∧ (∀ kvs rest, lookup kvs "id" = none →
        listEntries s (.obj kvs :: rest) = listEntries s rest)
    ∧ (∀ kvs v rest, lookup kvs "id" = some v → pyTruthy v = false →
        listEntries s (.obj kvs :: rest) = listEntries s rest)
    ∧ (∀ e rest, (∀ kvs, e ≠ Json.obj kvs) → listEntries s (e :: rest) = .error ()) := by
  refine ⟨?_, ?_, ?_, ?_⟩
  · intro h
    obtain ⟨sums, hok, hprop⟩ := listEntries_wf_ok s (loadIndex s.index) h
    exact ⟨sums, hok, fun r hr => by
      obtain ⟨kvs, t, _, _, ht, hl⟩ := hprop r hr
      exact ⟨t, hl, ht⟩⟩
  · intro kvs rest h
    simp [listEntries, h]
  · intro kvs v rest h1 h2
    simp [listEntries, h1, h2]
  · intro e rest h
    cases e with
    | obj kvs => exact absurd rfl (h kvs)
    | null => rfl
    | bool b => rfl
    | num n => rfl
    | str t => rfl
    | arr elts => rfl

/-- C10, witness: the amended statement's first part instantiated on
`storeIndexName`, whose index is well shaped. -/
theorem claim_C10_id_skipping_witness :
    ∃ sums, list_knowledge_bases storeIndexName = .ok sums
      ∧ ∀ r ∈ sums, ∃ t, lookup r "id" = some (.str t) ∧ t ≠ "" :=
  (claim_C10_id_skipping storeIndexName).1 rfl

/-- C4: after creating a record with clock reading `now₀` and applying any
sequence of updates whose clock readings are all `≥ now₀`, the record's
metadata has `created_at = now₀` (create sets both timestamps to the same
now and no update ever touches `created_at`) and `created_at ≤
updated_at`. -/
theorem claim_C4_timestamps (s : Store) (kb_id now₀ name dataset_name : String)
    (schema prompts : Option Json) (l : List UpdateArgs)
    (h : ∀ a ∈ l, now₀ ≤ a.now) :
    ∃ d m,
      findDir (applyUpdates kb_id
          (create_knowledge_base s kb_id now₀ name dataset_name schema prompts).1 l) kb_id
        = some d
      ∧ d.meta = .json (.obj m)
      ∧ lookup m "created_at" = some (.str now₀)
      ∧ ∃ u, lookup m "updated_at" = some (.str u) ∧ now₀ ≤ u := by
  have step : ∀ (s' : Store) (a : UpdateArgs) (d : KBDir) (m : List (String × Json)),
      findDir s' kb_id = some d → d.meta = .json (.obj m) →
      ∃ d' m',
        findDir (update_knowledge_base s' kb_id a.now a.name a.dataset_name
            a.schema a.prompts).1 kb_id = some d'
        ∧ d'.meta = .json (.obj m')
        ∧ lookup m' "created_at" = lookup m "created_at"
        ∧ lookup m' "updated_at" = some (.str a.now) := by
    intro s' a d m hf hdm
    have hm : readMetaForUpdate d.meta = .ok m := by
      rw [hdm]
      rfl
    refine ⟨updatedDir d (applyFieldUpdates m a.name a.dataset_name a.now kb_id)
        a.schema a.prompts,
      applyFieldUpdates m a.name a.dataset_name a.now kb_id, ?_, ?_, ?_, ?_⟩
    · rw [findDir, update_dirs_eq s' kb_id a.now a.name a.dataset_name a.schema a.prompts
        d m hf hm]
      exact lookupDir_dirSet_self _ _ _
    · rfl
    · exact lookup_applyFieldUpdates_created _ _ _ _ _
    · exact lookup_applyFieldUpdates_updated _ _ _ _ _
  have main : ∀ (rest : List UpdateArgs) (s' : Store) (d : KBDir) (m : List (String × Json)),
      (∀ a ∈ rest, now₀ ≤ a.now) →
      findDir s' kb_id = some d → d.meta = .json (.obj m) →
      lookup m "created_at" = some (.str now₀) →
      (∃ u, lookup m "updated_at" = some (.str u) ∧ now₀ ≤ u) →
      ∃ d' m', findDir (applyUpdates kb_id s' rest) kb_id = some d'
        ∧ d'.meta = .json (.obj m')
        ∧ lookup m' "created_at" = some (.str now₀)
        ∧ ∃ u, lookup m' "updated_at" = some (.str u) ∧ now₀ ≤ u := by
    intro rest
    induction rest with
    | nil =>
      intro s' d m _ hf hdm hc hu
      exact ⟨d, m, hf, hdm, hc, hu⟩
    | cons a rest ih =>
      intro s' d m hall hf hdm hc hu
      obtain ⟨d', m', hf', hdm', hc', hu'⟩ := step s' a d m hf hdm
      exact ih _ d' m' (fun b hb => hall b (List.mem_cons_of_mem _ hb)) hf' hdm'
        (by rw [hc', hc]) ⟨a.now, hu', hall a (List.mem_cons_self _ _)⟩
  refine main l (create_knowledge_base s kb_id now₀ name dataset_name schema prompts).1
    ⟨.json (.obj [("id", .str kb_id), ("name", .str name),
        ("dataset_name", .str dataset_name), ("created_at", .str now₀),
        ("updated_at", .str now₀)]),
      .json (schema.getD default_schema), .json (prompts.getD default_prompts)⟩
    _ h (lookupDir_dirSet_self _ _ _) rfl rfl ⟨now₀, rfl, le_refl _⟩

/-- C4, witness: creating `kb1` at time `"t0"` and renaming it once at the
same time keeps `created_at = "t0" ≤ updated_at`. -/
theorem claim_C4_timestamps_witness :
    ∃ d m,
      findDir (applyUpdates "kb1"
          (create_knowledge_base { dirs := [], index := .absent }
            "kb1" "t0" "n" "ds" none none).1
          [⟨"t0", some "n2", none, none, none⟩]) "kb1" = some d
      ∧ d.meta = .json (.obj m)
      ∧ lookup m "created_at" = some (.str "t0")
      ∧ ∃ u, lookup m "updated_at" = some (.str u) ∧ "t0" ≤ u :=
  claim_C4_timestamps { dirs := [], index := .absent } "kb1" "t0" "n" "ds" none none
    [⟨"t0", some "n2", none, none, none⟩]
    (by
      intro a ha
      rw [List.mem_singleton] at ha
      subst ha
      exact le_refl _)

/-- C5: updating only `name` re-writes the metadata with the new name,
leaves the metadata's `dataset_name` (and `created_at`) untouched, and
leaves the schema and prompts documents on disk exactly as they were. -/
theorem claim_C5_update_name_frame (s : Store) (kb_id now n : String) (d : KBDir)
    (m : List (String × Json)) (hf : findDir s kb_id = some d)
    (hm : readMetaForUpdate d.meta = .ok m) :
    ∃ d', findDir (update_knowledge_base s kb_id now (some n) none none none).1 kb_id
        = some d'
      ∧ d'.schema = d.schema
      ∧ d'.prompts = d.prompts
      ∧ ∃ m', d'.meta = .json (.obj m')
        ∧ lookup m' "name" = some (.str n)
        ∧ lookup m' "dataset_name" = lookup m "dataset_name"
        ∧ lookup m' "created_at" = lookup m "created_at" := by
  refine ⟨updatedDir d (applyFieldUpdates m (some n) none now kb_id) none none,
    ?_, rfl, rfl, applyFieldUpdates m (some n) none now kb_id, rfl, ?_, ?_, ?_⟩
  · rw [findDir, update_dirs_eq s kb_id now (some n) none none none d m hf hm]
    exact lookupDir_dirSet_self _ _ _
  · exact lookup_applyFieldUpdates_name_some _ _ _ _ _
  · exact lookup_applyFieldUpdates_dataset_none _ _ _ _
  · exact lookup_applyFieldUpdates_created _ _ _ _ _

/-- C5, witness: renaming the record of `storeIndexName` (whose metadata
parses to the empty dict) leaves its schema and prompts file slots and its
(absent) `dataset_name` untouched. -/
theorem claim_C5_update_name_frame_witness :
    ∃ d', findDir (update_knowledge_base storeIndexName "k1" "t1" (some "n2")
        none none none).1 "k1" = some d'
      ∧ d'.schema = FileData.absent
      ∧ d'.prompts = FileData.absent
      ∧ ∃ m', d'.meta = .json (.obj m')
        ∧ lookup m' "name" = some (.str "n2")
        ∧ lookup m' "dataset_name" = lookup [] "dataset_name"
        ∧ lookup m' "created_at" = lookup [] "created_at" :=
  claim_C5_update_name_frame storeIndexName "k1" "t1" "n2"
    ⟨.json (.obj []), .absent, .absent⟩ [] rfl rfl

/-- C6: with a well-shaped index, delete returns `false` exactly when the
record's directory is absent; otherwise it removes the directory, filters
every matching entry out of the index, persists it, and returns `true`,
after which `get_knowledge_base` and `get_schema_path_for_kb` return
not-found and no summary with that id appears in the listing. -/
theorem claim_C6_delete (s : Store) (kb_id : String) (hwf : indexWF s.index = true) :
    (findDir s kb_id = none → delete_knowledge_base s kb_id = (s, .ok false))
    ∧ (∀ d, findDir s kb_id = some d →
        ∃ s', delete_knowledge_base s kb_id = (s', .ok true)
          ∧ findDir s' kb_id = none
          ∧ get_knowledge_base s' kb_id = none
          ∧ get_schema_path_for_kb s' kb_id = none
          ∧ (∀ e ∈ loadIndex s'.index, ∀ kvs, e = Json.obj kvs → objIdEq kvs kb_id = false)
          ∧ ∃ sums, list_knowledge_bases s' = .ok sums
            ∧ ∀ r ∈ sums, lookup r "id" ≠ some (.str kb_id)) := by
  constructor
  · intro h
    simp [delete_knowledge_base, h]
  · intro d hd
    obtain ⟨out, hfo, hwfo, hprop⟩ := filterIndex_wf_ok kb_id (loadIndex s.index) hwf
    have hgone : lookupDir (dirRemove s.dirs kb_id) kb_id = none :=
      lookupDir_dirRemove_self s.dirs kb_id
    refine ⟨{ dirs := dirRemove s.dirs kb_id, index := .json (.arr out) },
      ?_, hgone, ?_, ?_, ?_, ?_⟩
    · simp [delete_knowledge_base, hd, hfo]
    · simp [get_knowledge_base, findDir, hgone]
    · simp [get_schema_path_for_kb, findDir, hgone]
    · intro e he kvs heq
      exact hprop e he kvs heq
    · obtain ⟨sums, hok, hprop2⟩ := listEntries_wf_ok
        { dirs := dirRemove s.dirs kb_id, index := .json (.arr out) } out hwfo
      refine ⟨sums, hok, ?_⟩
      intro r hr heq
      obtain ⟨kvs, t, hmem, hidl, _, hrid⟩ := hprop2 r hr
      rw [hrid] at heq
      injection heq with h'
      injection h' with h''
      have : objIdEq kvs kb_id = false := hprop _ hmem kvs rfl
      rw [objIdEq, hidl, h''] at this
      simp at this

/-- C6, witness: deleting `k1` from `storeIndexName` succeeds, after which
it is gone from reads and from the listing. -/
theorem claim_C6_delete_witness :
    ∃ s', delete_knowledge_base storeIndexName "k1" = (s', .ok true)
      ∧ findDir s' "k1" = none
      ∧ get_knowledge_base s' "k1" = none
      ∧ get_schema_path_for_kb s' "k1" = none
      ∧ (∀ e ∈ loadIndex s'.index, ∀ kvs, e = Json.obj kvs → objIdEq kvs "k1" = false)
      ∧ ∃ sums, list_knowledge_bases s' = .ok sums
        ∧ ∀ r ∈ sums, lookup r "id" ≠ some (.str "k1") :=
  (claim_C6_delete storeIndexName "k1" rfl).2 ⟨.json (.obj []), .absent, .absent⟩ rfl

/-- C8: directory presence is authoritative: a record whose directory
exists is readable regardless of index contents, and (with a well-shaped
index) deletable and listable even if the index does not track it. -/
theorem claim_C8_dir_authoritative (s : Store) (kb_id : String) (d : KBDir)
    (hd : findDir s kb_id = some d) :
    (get_knowledge_base s kb_id).isSome = true
    ∧ (indexWF s.index = true →
        (delete_knowledge_base s kb_id).2 = .ok true
        ∧ ∃ sums, list_knowledge_bases s = .ok sums) := by
  refine ⟨?_, ?_⟩
  · rw [get_knowledge_base_eq_some s kb_id d hd]
    rfl
  · intro hwf
    obtain ⟨out, hfo, _, _⟩ := filterIndex_wf_ok kb_id (loadIndex s.index) hwf
    constructor
    · simp [delete_knowledge_base, hd, hfo]
    · obtain ⟨sums, hok, _⟩ := listEntries_wf_ok s (loadIndex s.index) hwf
      exact ⟨sums, hok⟩

/-- C8, witness: on a store whose directory `kb1` exists but whose index is
empty (does not track it), get succeeds, delete succeeds, and listing does
not fail. -/
theorem claim_C8_dir_authoritative_witness :
    (get_knowledge_base storeNoSchemaFile "kb1").isSome = true
    ∧ ((delete_knowledge_base storeNoSchemaFile "kb1").2 = .ok true
       ∧ ∃ sums, list_knowledge_bases storeNoSchemaFile = .ok sums) :=
  ⟨(claim_C8_dir_authoritative storeNoSchemaFile "kb1"
      ⟨.json (.obj [("id", .str "kb1"), ("name", .str "n")]), .absent, .absent⟩ rfl).1,
   (claim_C8_dir_authoritative storeNoSchemaFile "kb1"
      ⟨.json (.obj [("id", .str "kb1"), ("name", .str "n")]), .absent, .absent⟩ rfl).2 rfl⟩

/-- C9: any record returned by `get_knowledge_base` carries the keys `id`,
`schema` and `prompts` (schema and prompts filled from the files or the
module defaults), while `name`, `dataset_name`, `created_at` and
`updated_at` are absent entirely when the metadata file is missing or
unparseable. -/
theorem claim_C9_record_shape (s : Store) (kb_id : String) (r : List (String × Json))
    (h : get_knowledge_base s kb_id = some r) :
    (lookup r "id").isSome = true
    ∧ ∃ d, findDir s kb_id = some d
      ∧ lookup r "schema" = some (schemaVal d.schema)
      ∧ lookup r "prompts" = some (promptsVal d.prompts)
      ∧ (d.meta = .absent ∨ d.meta = .malformed →
          lookup r "name" = none ∧ lookup r "dataset_name" = none
          ∧ lookup r "created_at" = none ∧ lookup r "updated_at" = none) := by
  cases hf : findDir s kb_id with
  | none => simp [get_knowledge_base, hf] at h
  | some d =>
    have hr : r = assembleRecord kb_id d := by
      have h2 := get_knowledge_base_eq_some s kb_id d hf
      rw [h] at h2
      exact Option.some.inj h2
    subst hr
    obtain ⟨dm, ds, dp⟩ := d
    refine ⟨?_, ⟨⟨dm, ds, dp⟩, rfl, lookup_assembleRecord_schema _ _,
      lookup_assembleRecord_prompts _ _, ?_⟩⟩
    · cases dm with
      | json j =>
        cases j with
        | obj m =>
          unfold assembleRecord
          exact isSome_lookup_dictSet _ _ _ _ (isSome_lookup_dictSet _ _ _ _
            (isSome_lookup_dictUpdate _ _ _ (by rfl)))
        | null => exact isSome_lookup_dictSet _ _ _ _ (isSome_lookup_dictSet _ _ _ _ (by rfl))
        | bool b => exact isSome_lookup_dictSet _ _ _ _ (isSome_lookup_dictSet _ _ _ _ (by rfl))
        | num n => exact isSome_lookup_dictSet _ _ _ _ (isSome_lookup_dictSet _ _ _ _ (by rfl))
        | str t => exact isSome_lookup_dictSet _ _ _ _ (isSome_lookup_dictSet _ _ _ _ (by rfl))
        | arr elts => exact isSome_lookup_dictSet _ _ _ _ (isSome_lookup_dictSet _ _ _ _ (by rfl))
      | absent => exact isSome_lookup_dictSet _ _ _ _ (isSome_lookup_dictSet _ _ _ _ (by rfl))
      | malformed => exact isSome_lookup_dictSet _ _ _ _ (isSome_lookup_dictSet _ _ _ _ (by rfl))
    · intro hma
      have hbase : assembleRecord kb_id ⟨dm, ds, dp⟩
          = dictSet (dictSet [("id", .str kb_id)] "schema" (schemaVal ds))
              "prompts" (promptsVal dp) := by
        rcases hma with rfl | rfl <;> rfl
      refine ⟨?_, ?_, ?_, ?_⟩ <;>
        · rw [hbase, lookup_dictSet_ne _ _ _ _ (by decide),
            lookup_dictSet_ne _ _ _ _ (by decide)]
          rfl

/-- C9, witness: the shape statement instantiated on `storeNoSchemaFile`
(metadata present and parsed, schema and prompts files absent). -/
theorem claim_C9_record_shape_witness :
    (lookup [("id", Json.str "kb1"), ("name", Json.str "n"),
        ("schema", default_schema), ("prompts", default_prompts)] "id").isSome = true
    ∧ ∃ d, findDir storeNoSchemaFile "kb1" = some d
      ∧ lookup [("id", Json.str "kb1"), ("name", Json.str "n"),
          ("schema", default_schema), ("prompts", default_prompts)] "schema"
          = some (schemaVal d.schema)
      ∧ lookup [("id", Json.str "kb1"), ("name", Json.str "n"),
          ("schema", default_schema), ("prompts", default_prompts)] "prompts"
          = some (promptsVal d.prompts)
      ∧ (d.meta = .absent ∨ d.meta = .malformed →
          lookup [("id", Json.str "kb1"), ("name", Json.str "n"),
            ("schema", default_schema), ("prompts", default_prompts)] "name" = none
          ∧ lookup [("id", Json.str "kb1"), ("name", Json.str "n"),
              ("schema", default_schema), ("prompts", default_prompts)] "dataset_name" = none
          ∧ lookup [("id", Json.str "kb1"), ("name", Json.str "n"),
              ("schema", default_schema), ("prompts", default_prompts)] "created_at" = none
          ∧ lookup [("id", Json.str "kb1"), ("name", Json.str "n"),
              ("schema", default_schema), ("prompts", default_prompts)] "updated_at" = none) :=
  claim_C9_record_shape storeNoSchemaFile "kb1"
    [("id", Json.str "kb1"), ("name", Json.str "n"),
     ("schema", default_schema), ("prompts", default_prompts)] rfl

end KBStore
